import Mathlib

/-!
Verification of the authentication / rate-limiting gate, the limit-string
parser, the error-header sanitizer and the render dispatch layer of the
QuickChart server fork (`index.js`).

The JavaScript source is shallowly embedded: JS strings are Lean `String`s
(compared and sliced through their character lists, which agrees with the
JS code-unit operations on the ASCII data the server manipulates), JS
numbers are integral doubles, modelled as exact integers rounded to the
53-bit significand of IEEE-754 (`roundToDouble`, with the ECMAScript
shortest-representation printer for `String(n)`), a possibly-`undefined`
value is an `Option`, and the mutable per-process stores (`apiKeys`,
`requestCounts`) are threaded explicitly as association lists.  External
renderer collaborators (chart.js, QR, Graphviz, PDF) are modelled as
oracles supplying a success / failure outcome.
-/

namespace QuickChart

/-! ## JS primitives -/

/-- Truthiness of a JS value that is either a string or `undefined`:
`undefined` and the empty string are falsy. -/
def jsTruthy : Option String → Bool
  | none => false
  | some s => !(s.data = [])

/-- JS `a || b` for string-or-undefined values: `a` when truthy, else `b`. -/
def jsOrStr (a b : Option String) : Option String :=
  if jsTruthy a then a else b

/-- JS `String.prototype.split` with a single-character separator. -/
def splitChar (sep : Char) : List Char → List (List Char)
  | [] => [[]]
  | c :: rest =>
    let r := splitChar sep rest
    if c = sep then [] :: r
    else
      match r with
      | [] => [[c]]
      | g :: gs => (c :: g) :: gs

/-- The whitespace characters skipped by JS `parseInt`. -/
def isJsSpace (c : Char) : Bool :=
  c = ' ' || c = '\t' || c = '\n' || c = '\r'

/-- Numeric value of a list of decimal digit characters (most significant
first), as folded up by a left-to-right scan. -/
def digitsVal (ds : List Char) : Nat :=
  ds.foldl (fun a c => 10 * a + (c.toNat - 48)) 0

/-- Value of the longest decimal-digit prefix, `none` when there is no
digit (JS `NaN`). -/
def digitsPrefixVal (cs : List Char) : Option Nat :=
  let ds := cs.takeWhile Char.isDigit
  if ds = [] then none else some (digitsVal ds)

/-- Little-endian decimal digits of a natural number; `fuel` bounds the
recursion and any `fuel > n` is enough. -/
def natDigitsRevGo (fuel : Nat) (n : Nat) : List Char :=
  match fuel with
  | 0 => []
  | fuel + 1 =>
    if n < 10 then [Nat.digitChar n]
    else Nat.digitChar (n % 10) :: natDigitsRevGo fuel (n / 10)

/-- Little-endian decimal digits of a natural number. -/
def natDigitsRev (n : Nat) : List Char := natDigitsRevGo (n + 1) n

/-- Decimal digits of a natural number, most significant first. -/
def digitsOf (n : Nat) : List Char := (natDigitsRev n).reverse

/-- Number of decimal digits (one digit for 0). -/
def numDigits (n : Nat) : Nat := (natDigitsRev n).length

/-- Bit length of a natural number; `fuel` bounds the recursion. -/
def bitLenGo (fuel : Nat) (n : Nat) : Nat :=
  match fuel with
  | 0 => 0
  | fuel + 1 => if n = 0 then 0 else bitLenGo fuel (n / 2) + 1

/-- Bit length of a natural number (`0` for 0). -/
def bitLen (n : Nat) : Nat := bitLenGo (n + 1) n

/-- Round a natural number to the nearest IEEE-754 double (53-bit
significand, ties to even): exact below `2^53`, otherwise rounded onto
the spacing-`2^(bitLen n - 53)` grid of its binade.  Exponent overflow
(`≥ 2^1024`, JS `Infinity`) is not modelled: it needs a limit string of
over 300 digits, always fails the `String` round trip below, and as a
bound admits every count just as `Infinity` does. -/
def roundToDouble (n : Nat) : Nat :=
  if n < 2 ^ 53 then n
  else
    let k := bitLen n - 53
    let q := n / 2 ^ k
    let r := n % 2 ^ k
    let half := 2 ^ (k - 1)
    if r < half then q * 2 ^ k
    else if half < r then (q + 1) * 2 ^ k
    else if q % 2 = 0 then q * 2 ^ k else (q + 1) * 2 ^ k

/-- Sign handling of JS `parseInt` after whitespace has been skipped: the
digit prefix is read exactly and the result is the nearest double. -/
def jsParseIntSigned : List Char → Option Int
  | [] => none
  | a :: r =>
    if a = '-' then (digitsPrefixVal r).map (fun v => -((roundToDouble v : Nat) : Int))
    else if a = '+' then (digitsPrefixVal r).map (fun v => ((roundToDouble v : Nat) : Int))
    else (digitsPrefixVal (a :: r)).map (fun v => ((roundToDouble v : Nat) : Int))

/-- JS `parseInt(s, 10)`: skip leading whitespace, optional sign, then the
longest digit prefix, rounded to double precision; `none` models `NaN`. -/
def jsParseIntChars (cs0 : List Char) : Option Int :=
  jsParseIntSigned (cs0.dropWhile isJsSpace)

/-- JS `parseInt` applied to a string-or-undefined value
(`parseInt(undefined)` is `NaN`). -/
def jsParseIntOpt : Option (List Char) → Option Int
  | none => none
  | some cs => jsParseIntChars cs

/-- Strip factors of ten from a significand, raising the exponent:
normalization used by the shortest-representation printer. -/
def normTenGo (fuel m e : Nat) : Nat × Nat :=
  match fuel with
  | 0 => (m, e)
  | fuel + 1 => if m % 10 = 0 && m ≠ 0 then normTenGo fuel (m / 10) (e + 1) else (m, e)

/-- Count of significant digits of `m` once trailing zeros are
stripped. -/
def sigDigits (m : Nat) : Nat := numDigits (normTenGo (numDigits m) m 0).1

/-- ECMAScript `Number::toString` choice among the decimal candidates at
one power of ten `p`: fewest significant digits first, then the value
closest to `x`, then the larger value. -/
def betterCand (x p a b : Nat) : Nat :=
  let va := a * p
  let vb := b * p
  let da := sigDigits a
  let db := sigDigits b
  if da < db then a
  else if db < da then b
  else
    let distA := if x ≤ va then va - x else x - va
    let distB := if x ≤ vb then vb - x else x - vb
    if distA < distB then a
    else if distB < distA then b
    else if vb ≤ va then a else b

/-- Best multiple of `10^e` inside the rounding interval of the double
`x`; the interval is given in doubled units as `[lo2, hi2]`, endpoints
included exactly when `closed` (ties round back to `x`). -/
def bestAt (x lo2 hi2 : Nat) (closed : Bool) (e : Nat) : Option Nat :=
  let tp := 2 * 10 ^ e
  let mLo := if closed then (lo2 + tp - 1) / tp else lo2 / tp + 1
  let mHi := if closed then hi2 / tp else (hi2 - 1) / tp
  if mHi < mLo then none
  else
    (List.range (mHi + 1 - mLo)).foldl
      (fun acc idx =>
        match acc with
        | none => some (mLo + idx)
        | some m' => some (betterCand x (10 ^ e) m' (mLo + idx)))
      none

/-- Search downwards for the largest power of ten carrying a candidate:
yields the shortest decimal that reads back as the double `x`. -/
def shortestSearch (x lo2 hi2 : Nat) (closed : Bool) : Nat → Nat × Nat
  | 0 =>
    match bestAt x lo2 hi2 closed 0 with
    | some m => (m, 0)
    | none => (x, 0)
  | e + 1 =>
    match bestAt x lo2 hi2 closed (e + 1) with
    | some m => (m, e + 1)
    | none => shortestSearch x lo2 hi2 closed e

/-- ECMAScript `Number::toString` for an integral double at or above
`2^53`: the shortest decimal significand whose value reads back as the
number, printed as a plain integer up to 21 digits and in exponential
notation `d.ddd…e+K` beyond. -/
def formatDouble (n : Nat) : List Char :=
  let bl := bitLen n
  let k := bl - 53
  let ulpUp := 2 ^ k
  let ulpDown := if n = 2 ^ (bl - 1) then 2 ^ (k - 1) else 2 ^ k
  let closed := (n / 2 ^ k) % 2 = 0
  let lo2 := 2 * n - ulpDown
  let hi2 := 2 * n + ulpUp
  let me := shortestSearch n lo2 hi2 closed (numDigits n - 1)
  let norm := normTenGo (numDigits me.1) me.1 me.2
  let v := norm.1 * 10 ^ norm.2
  let nExp := numDigits v
  if nExp ≤ 21 then digitsOf v
  else
    match digitsOf norm.1 with
    | [] => []
    | d :: rest =>
      if rest = [] then d :: 'e' :: '+' :: digitsOf (nExp - 1)
      else d :: '.' :: (rest ++ 'e' :: '+' :: digitsOf (nExp - 1))

/-- JS `String(v)` for the integral-double result of `parseInt`: below
`2^53` every integer is a double and its exact decimal expansion is the
unique shortest readback (the rounding interval has width at most one,
so no shorter significand lies inside it); at or above `2^53` the
shortest-representation printer applies, with exponential notation from
`10^21` on. -/
def natToJsDigits (n0 : Nat) : List Char :=
  let n := roundToDouble n0
  if n < 2 ^ 53 then digitsOf n else formatDouble n

/-- JS `String(v)` for an integral double, sign included. -/
def jsNumToString (i : Int) : List Char :=
  if i < 0 then '-' :: natToJsDigits i.natAbs else natToJsDigits i.toNat

/-! ## LimitSpec and `parseLimits` (`index.js` lines 27-45) -/

/-- The parsed multi-window limit object: one optional bound per window
unit, exactly the `rps`/`rpm`/`rph`/`rpd` keys the JS object can carry. -/
structure LimitSpec where
  rps : Option Int := none
  rpm : Option Int := none
  rph : Option Int := none
  rpd : Option Int := none
  deriving DecidableEq, Repr

/-- One iteration of the `limitString.split(',').forEach` body: split the
segment on `:`, and when the key is one of the four unit names and the
value parses to a number, overwrite that unit's bound. -/
def applySeg (acc : LimitSpec) (part : List Char) : LimitSpec :=
  let pieces := splitChar ':' part
  let key := pieces.headD []
  match jsParseIntOpt pieces[1]? with
  | none => acc
  | some v =>
    if key = "rps".data then { acc with rps := some v }
    else if key = "rpm".data then { acc with rpm := some v }
    else if key = "rph".data then { acc with rph := some v }
    else if key = "rpd".data then { acc with rpd := some v }
    else acc

/-- `parseLimits` from `index.js`: falsy input gives the empty object; an
input that round-trips through `parseInt`/`String` is a bare per-second
bound; otherwise comma-separated `unit:value` segments are folded up. -/
def parseLimits (limitString : Option String) : LimitSpec :=
  match limitString with
  | none => {}
  | some s =>
    if s.data = [] then {}
    else
      match jsParseIntChars s.data with
      | some n =>
        if jsNumToString n = s.data then { rps := some n }
        else (splitChar ',' s.data).foldl applySeg {}
      | none => (splitChar ',' s.data).foldl applySeg {}

/-! ## Error-header sanitizer (`index.js` lines 289-301) -/

/-- UTF-8 encoding of a single Unicode code point, as the `TextEncoder`
used by `utf8ToAscii` produces it. -/
def utf8EncodeCodepoint (n : Nat) : List Nat :=
  if n < 0x80 then [n]
  else if n < 0x800 then [0xC0 + n / 0x40, 0x80 + n % 0x40]
  else if n < 0x10000 then
    [0xE0 + n / 0x1000, 0x80 + (n / 0x40) % 0x40, 0x80 + n % 0x40]
  else
    [0xF0 + n / 0x40000, 0x80 + (n / 0x1000) % 0x40, 0x80 + (n / 0x40) % 0x40,
      0x80 + n % 0x40]

/-- `utf8ToAscii`: UTF-8-encode the string and turn each byte back into one
character via `String.fromCharCode`; the result is represented by its list
of character codes (each one a UTF-8 byte value). -/
def utf8ToAscii (s : String) : List Nat :=
  (s.data.map Char.toNat).flatMap utf8EncodeCodepoint

/-- A JS value as far as `sanitizeErrorHeader` can distinguish it: a string
or anything else (e.g. an `Error` object). -/
inductive JsVal where
  | str (s : String)
  | nonString
  deriving DecidableEq

/-- `sanitizeErrorHeader`: for strings, `utf8ToAscii` followed by the
global replace of `/\r?\n|\r/` with the empty string — which deletes
exactly the characters of code 10 and 13; anything else maps to `''`. -/
def sanitizeErrorHeader : JsVal → List Nat
  | .str s => (utf8ToAscii s).filter (fun b => b ≠ 10 && b ≠ 13)
  | .nonString => []

/-! ## Responses produced by `failPng` / `failSvg` / `failPdf` -/

/-- The observable part of an HTTP response written by the server: status
code, `Content-Type` header (when one is set) and the
`X-quickchart-error` header (when one is set). -/
structure Response where
  status : Nat
  contentType : Option String
  errorHeader : Option (List Nat)
  deriving DecidableEq, Repr

/-- `failPng`: an `image/png` error response carrying the sanitized
message, default status 500. -/
def failPng (msg : JsVal) (statusCode : Nat := 500) : Response :=
  { status := statusCode, contentType := some "image/png",
    errorHeader := some (sanitizeErrorHeader msg) }

/-- `failSvg`: an `image/svg+xml` error response carrying the sanitized
message, default status 500. -/
def failSvg (msg : JsVal) (statusCode : Nat := 500) : Response :=
  { status := statusCode, contentType := some "image/svg+xml",
    errorHeader := some (sanitizeErrorHeader msg) }

/-- `failPdf`: an `application/pdf` error response carrying the sanitized
message, always status 500. -/
def failPdf (msg : JsVal) : Response :=
  { status := 500, contentType := some "application/pdf",
    errorHeader := some (sanitizeErrorHeader msg) }

/-! ## Window counters and the auth / rate-limit gate (`index.js` 67-123) -/

/-- The per-key counter object `requestCounts[key]`: the `ts_*`/`count_*`
fields the `check` closure reads and writes, each possibly absent. -/
structure Counts where
  ts_s : Option Int := none
  count_s : Option Int := none
  ts_m : Option Int := none
  count_m : Option Int := none
  ts_h : Option Int := none
  count_h : Option Int := none
  ts_d : Option Int := none
  count_d : Option Int := none
  deriving DecidableEq, Repr

/-- JS `counts[countKey] += 1` when the field may be absent: incrementing
`undefined` gives `NaN`, modelled by `none`. -/
def jsInc : Option Int → Option Int
  | none => none
  | some n => some (n + 1)

/-- JS `counts[countKey] <= limit`: `NaN`/`undefined` compares false. -/
def jsLe : Option Int → Int → Bool
  | none, _ => false
  | some n, l => n ≤ l

/-- The `check(limit, unit, timestamp)` closure, acting on the stored
`ts_*`/`count_*` pair of one window unit.  Returns the pass flag and the
new field values: no limit passes untouched, limit 0 fails untouched, a
bucket change resets the count to 1, otherwise the count is incremented;
the window passes iff the updated count is at most the limit. -/
def check (limit : Option Int) (timestamp : Int) (stTs stCount : Option Int) :
    Bool × Option Int × Option Int :=
  match limit with
  | none => (true, stTs, stCount)
  | some l =>
    if l = 0 then (false, stTs, stCount)
    else if stTs ≠ some timestamp then
      (jsLe (some 1) l, some timestamp, some 1)
    else
      (jsLe (jsInc stCount) l, stTs, jsInc stCount)

/-- The four short-circuited `check` calls of `authAndRateLimit` (lines
112-117): seconds, then minutes, hours, days, stopping at the first
failure; returns the overall pass flag and the updated counter object. -/
def rateCheck (limits : LimitSpec) (now : Int) (c0 : Counts) : Bool × Counts :=
  let r1 := check limits.rps (Int.fdiv now 1000) c0.ts_s c0.count_s
  let c1 := { c0 with ts_s := r1.2.1, count_s := r1.2.2 }
  if !r1.1 then (false, c1) else
  let r2 := check limits.rpm (Int.fdiv now 60000) c1.ts_m c1.count_m
  let c2 := { c1 with ts_m := r2.2.1, count_m := r2.2.2 }
  if !r2.1 then (false, c2) else
  let r3 := check limits.rph (Int.fdiv now 3600000) c2.ts_h c2.count_h
  let c3 := { c2 with ts_h := r3.2.1, count_h := r3.2.2 }
  if !r3.1 then (false, c3) else
  let r4 := check limits.rpd (Int.fdiv now 86400000) c3.ts_d c3.count_d
  let c4 := { c3 with ts_d := r4.2.1, count_d := r4.2.2 }
  (r4.1, c4)

/-- The `apiKeys` map: credential string to parsed LimitSpec. -/
def registryGet (apiKeys : List (String × LimitSpec)) (k : String) : Option LimitSpec :=
  match apiKeys.find? (fun p => p.1 = k) with
  | some p => some p.2
  | none => none

/-- The mutable `requestCounts` table, threaded explicitly. -/
abbrev Store := List (String × Counts)

def storeGet (st : Store) (k : String) : Option Counts :=
  match st.find? (fun p => p.1 = k) with
  | some p => some p.2
  | none => none

def storeSet (st : Store) (k : String) (v : Counts) : Store :=
  match st with
  | [] => [(k, v)]
  | (k', v') :: rest => if k' = k then (k, v) :: rest else (k', v') :: storeSet rest k v

/-- Credential resolution (lines 69-75): a `Bearer `-prefixed authorization
header wins, else a truthy `key` query parameter, else `_anonymous_`. -/
def resolveKey (authHeader queryKey : Option String) : String :=
  if jsTruthy authHeader && ("Bearer ".data.isPrefixOf (authHeader.getD "").data) then
    String.mk ((authHeader.getD "").data.drop 7)
  else if jsTruthy queryKey then queryKey.getD ""
  else "_anonymous_"

/-- The `authAndRateLimit` middleware: resolve the credential, reject
unknown credentials with a 401 PNG, otherwise run the four window checks
and either fall through (`none` = `next()`) or reject with a 429 PNG; in
both known-credential cases the updated counter object is stored back. -/
def authAndRateLimit (apiKeys : List (String × LimitSpec)) (authHeader queryKey : Option String)
    (now : Int) (st : Store) : Option Response × Store :=
  let key := resolveKey authHeader queryKey
  match registryGet apiKeys key with
  | none => (some (failPng (JsVal.str "Unauthorized: Invalid API key.") 401), st)
  | some limits =>
    let counts := (storeGet st key).getD {}
    let r := rateCheck limits now counts
    if r.1 then (none, storeSet st key r.2)
    else (some (failPng (JsVal.str "Too Many Requests") 429), storeSet st key r.2)

/-- A sequence of admission checks for the same caller at the given
timestamps, threading the counter store; returns the per-request gate
outputs (`none` = admitted) and the final store. -/
def runRequests (apiKeys : List (String × LimitSpec)) (authHeader queryKey : Option String) :
    List Int → Store → List (Option Response) × Store
  | [], st => ([], st)
  | t :: rest, st =>
    let r := authAndRateLimit apiKeys authHeader queryKey t st
    let rs := runRequests apiKeys authHeader queryKey rest r.2
    (r.1 :: rs.1, rs.2)

/-! ## Window units, viewed uniformly -/

/-- The four window units of the limiter. -/
inductive WUnit | s | m | h | d
  deriving DecidableEq, Repr

/-- Window length in milliseconds. -/
def windowMs : WUnit → Int
  | .s => 1000
  | .m => 60000
  | .h => 3600000
  | .d => 86400000

/-- The time bucket of a unit at a given epoch-milliseconds instant:
`Math.floor(now / windowLengthMs)`. -/
def bucketOf (u : WUnit) (now : Int) : Int := Int.fdiv now (windowMs u)

/-- The bound a LimitSpec assigns to a unit. -/
def limitOf : WUnit → LimitSpec → Option Int
  | .s, L => L.rps
  | .m, L => L.rpm
  | .h, L => L.rph
  | .d, L => L.rpd

/-- A LimitSpec with a single configured window unit. -/
def singleLimit (u : WUnit) (b : Int) : LimitSpec :=
  match u with
  | .s => { rps := some b }
  | .m => { rpm := some b }
  | .h => { rph := some b }
  | .d => { rpd := some b }

/-- The stored bucket id of a unit. -/
def tsOf : WUnit → Counts → Option Int
  | .s, c => c.ts_s
  | .m, c => c.ts_m
  | .h, c => c.ts_h
  | .d, c => c.ts_d

/-- The stored count of a unit. -/
def countOf : WUnit → Counts → Option Int
  | .s, c => c.count_s
  | .m, c => c.count_m
  | .h, c => c.count_h
  | .d, c => c.count_d

/-- Overwrite the bucket id / count pair of one unit. -/
def setUC (u : WUnit) (c : Counts) (ts cnt : Option Int) : Counts :=
  match u with
  | .s => { c with ts_s := ts, count_s := cnt }
  | .m => { c with ts_m := ts, count_m := cnt }
  | .h => { c with ts_h := ts, count_h := cnt }
  | .d => { c with ts_d := ts, count_d := cnt }

/-- The `check` call of one unit, on the original counter object (earlier
units touch only their own fields, so this is what `rateCheck` feeds it). -/
def checkU (L : LimitSpec) (now : Int) (c : Counts) (u : WUnit) :
    Bool × Option Int × Option Int :=
  check (limitOf u L) (bucketOf u now) (tsOf u c) (countOf u c)

/-- Whether the `check` call of one unit passes. -/
def unitPass (L : LimitSpec) (now : Int) (c : Counts) (u : WUnit) : Bool :=
  (checkU L now c u).1

/-- Whether `rateCheck` reaches a unit's `check` call at all: every
earlier unit must have passed (short-circuit evaluation). -/
def examined (L : LimitSpec) (now : Int) (c : Counts) : WUnit → Bool
  | .s => true
  | .m => unitPass L now c .s
  | .h => unitPass L now c .s && unitPass L now c .m
  | .d => unitPass L now c .s && unitPass L now c .m && unitPass L now c .h

/-! ## Request normalization and dispatch (`index.js` 193-282, 421-496) -/

/-- The query parameters the embedded routes read; `none` is an absent
parameter (`undefined`). -/
structure Query where
  key : Option String := none
  f : Option String := none
  format : Option String := none
  c : Option String := none
  chart : Option String := none
  encoding : Option String := none
  text : Option String := none
  cht : Option String := none
  chs : Option String := none
  chl : Option String := none
  chld : Option String := none
  chof : Option String := none
  deriving DecidableEq

/-- ASCII lowering, the effect of JS `toLowerCase` on the format strings
the dispatcher compares against. -/
def jsToLower (s : String) : String := String.mk (s.data.map Char.toLower)

/-- `(req.query.f || req.query.format || 'png').toLowerCase()`. -/
def resolveChartFormat (q : Query) : String :=
  jsToLower ((jsOrStr q.f (jsOrStr q.format (some "png"))).getD "png")

/-- The content type the server associates with each image output
format. -/
def formatContentType (fmt : String) : String :=
  if fmt = "svg" then "image/svg+xml"
  else if fmt = "pdf" then "application/pdf"
  else "image/png"

/-- Outcome of an external renderer collaborator: a buffer, or a rejection
carrying an error value. -/
inductive ChartRender where
  | ok
  | fail (e : JsVal)
  deriving DecidableEq

/-- `doChartjsRender`: missing `c`/`chart` fails through the
format-specific `failFn`; a malformed base64 body fails through `failFn`;
a renderer rejection fails through `failFn`; otherwise the
format-specific success handler answers 200. -/
def doChartjsRender (chart encoding : Option String) (b64fail : Option JsVal)
    (render : ChartRender) (failFn : JsVal → Nat → Response) (okResp : Response) : Response :=
  if !(jsTruthy chart) then failFn (JsVal.str "You are missing variable `c` or `chart`") 500
  else if encoding = some "base64" ∧ b64fail.isSome then failFn (b64fail.getD JsVal.nonString) 500
  else
    match render with
    | .ok => okResp
    | .fail e => failFn e 500

/-- The format dispatch of `GET /chart` for a native (non-`cht`) request:
pdf, svg and png go to `doChartjsRender` with the matching ok-response and
fail function; any other format is a bare 500 without content type or
diagnostic header. -/
def chartGet (q : Query) (render : ChartRender) (b64fail : Option JsVal) : Response :=
  let fmt := resolveChartFormat q
  let chart := jsOrStr q.c q.chart
  let encoding := jsOrStr q.encoding (some "url")
  if fmt = "pdf" then
    doChartjsRender chart encoding b64fail render (fun m _ => failPdf m)
      { status := 200, contentType := some "application/pdf", errorHeader := none }
  else if fmt = "svg" then
    doChartjsRender chart encoding b64fail render (fun m s => failSvg m s)
      { status := 200, contentType := some "image/svg+xml", errorHeader := none }
  else if fmt = "" ∨ fmt = "png" then
    doChartjsRender chart encoding b64fail render (fun m s => failPng m s)
      { status := 200, contentType := some "image/png", errorHeader := none }
  else { status := 500, contentType := none, errorHeader := none }

/-- `GET /qr` (lines 244-282): missing/empty `text` is a `failPng`
regardless of the requested format; otherwise the format is svg only when
`format === 'svg'`; a renderer rejection is caught by `failPng` — also for
svg requests. -/
def handleQr (q : Query) (render : ChartRender) : Response :=
  if !(jsTruthy q.text) then failPng (JsVal.str "You are missing variable `text`") 500
  else
    match render with
    | .ok =>
      { status := 200,
        contentType := some (if q.format = some "svg" then "image/svg+xml" else "image/png"),
        errorHeader := none }
    | .fail e => failPng e 500

/-- How a request leaves the JS handler: a written response, a synchronous
exception escaping to the transport layer, or a promise rejection with no
`catch` handler attached. -/
inductive JsOutcome where
  | resp (r : Response)
  | thrown
  | unhandledRejection
  deriving DecidableEq

/-- The external collaborators `handleGChart` can call, as outcomes. -/
structure Collab where
  graphviz : ChartRender
  qr : ChartRender
  toChartJsOk : Bool
  legacyRender : ChartRender
  deriving DecidableEq

/-- Stringification of an error value interpolated into a template
literal; the exact text of a non-string error is irrelevant to the claims
and modelled by a fixed placeholder. -/
def jsErrString : JsVal → String
  | .str s => s
  | .nonString => "Error"

/-- `handleGChart` (lines 421-496).  `req.query.cht.startsWith` throws when
`cht` is absent; in the `qr` branch `req.query.chs.split` throws when `chs`
is absent; the Graphviz and QR render rejections are caught
(`failPng`/`failSvg`), a `toChartJs` exception is caught and answered as a
bare 500, but the final legacy `renderChartJs` promise has no `catch`, so
its rejection is an unhandled rejection. -/
def handleGChart (q : Query) (co : Collab) : JsOutcome :=
  match q.cht with
  | none => .thrown
  | some cht =>
    if "gv".data.isPrefixOf cht.data then
      match co.graphviz with
      | .ok =>
        .resp { status := 200,
                contentType :=
                  some (if q.chof = some "png" then "image/png" else "image/svg+xml"),
                errorHeader := none }
      | .fail e =>
        .resp (if q.chof = some "png" then
                failPng (JsVal.str ("Graph Error: " ++ jsErrString e)) 500
              else failSvg (JsVal.str ("Graph Error: " ++ jsErrString e)) 500)
    else if cht = "qr" then
      match q.chs with
      | none => .thrown
      | some _ =>
        match co.qr with
        | .ok => .resp { status := 200, contentType := some "image/png", errorHeader := none }
        | .fail e => .resp (failPng e 500)
    else if !co.toChartJsOk then
      .resp { status := 500, contentType := none, errorHeader := none }
    else if q.format = some "chartjs-config" then
      .resp { status := 200, contentType := some "application/json", errorHeader := none }
    else
      match co.legacyRender with
      | .ok => .resp { status := 200, contentType := some "image/png", errorHeader := none }
      | .fail _ => .unhandledRejection

/-- Closed form of `rateCheck`: the pass flag is the conjunction of the
four per-unit pass flags, and a unit's stored pair is overwritten by its
`check` result exactly when the unit is examined. -/
theorem rateCheck_closed (L : LimitSpec) (now : Int) (c : Counts) :
    rateCheck L now c =
      (examined L now c .d && unitPass L now c .d,
       { ts_s := (checkU L now c .s).2.1,
         count_s := (checkU L now c .s).2.2,
         ts_m := if examined L now c .m then (checkU L now c .m).2.1 else c.ts_m,
         count_m := if examined L now c .m then (checkU L now c .m).2.2 else c.count_m,
         ts_h := if examined L now c .h then (checkU L now c .h).2.1 else c.ts_h,
         count_h := if examined L now c .h then (checkU L now c .h).2.2 else c.count_h,
         ts_d := if examined L now c .d then (checkU L now c .d).2.1 else c.ts_d,
         count_d := if examined L now c .d then (checkU L now c .d).2.2 else c.count_d }) := by
  rcases h1 : check L.rps (Int.fdiv now 1000) c.ts_s c.count_s with ⟨p1, ts1, cn1⟩
  rcases h2 : check L.rpm (Int.fdiv now 60000) c.ts_m c.count_m with ⟨p2, ts2, cn2⟩
  rcases h3 : check L.rph (Int.fdiv now 3600000) c.ts_h c.count_h with ⟨p3, ts3, cn3⟩
  rcases h4 : check L.rpd (Int.fdiv now 86400000) c.ts_d c.count_d with ⟨p4, ts4, cn4⟩
  simp only [rateCheck, examined, unitPass, checkU, limitOf, bucketOf, windowMs,
    tsOf, countOf, h1, h2, h3, h4]
  cases p1 <;> cases p2 <;> cases p3 <;> cases p4 <;> simp

/-! ## Digit-string lemmas for the `parseInt`/`String` round trip -/

theorem digitChar_facts : ∀ d : Nat, d < 10 →
    (Nat.digitChar d).isDigit = true ∧ isJsSpace (Nat.digitChar d) = false ∧
    Nat.digitChar d ≠ '-' ∧ Nat.digitChar d ≠ '+' ∧
    (Nat.digitChar d).toNat = 48 + d := by decide

theorem natDigitsRevGo_mem (fuel n : Nat) (h : n < fuel) :
    ∀ c ∈ natDigitsRevGo fuel n, ∃ d, d < 10 ∧ c = Nat.digitChar d := by
  induction fuel generalizing n with
  | zero => omega
  | succ fuel ih =>
    intro c hc
    simp only [natDigitsRevGo] at hc
    by_cases h10 : n < 10
    · simp only [if_pos h10, List.mem_singleton] at hc
      exact ⟨n, h10, hc⟩
    · simp only [if_neg h10, List.mem_cons] at hc
      rcases hc with hc | hc
      · exact ⟨n % 10, by omega, hc⟩
      · exact ih (n / 10) (by omega) c hc

theorem natDigitsRevGo_ne_nil (fuel n : Nat) (h : n < fuel) :
    natDigitsRevGo fuel n ≠ [] := by
  cases fuel with
  | zero => omega
  | succ fuel =>
    simp only [natDigitsRevGo]
    by_cases h10 : n < 10 <;> simp [h10]

theorem digitsVal_append (xs : List Char) (c : Char) :
    digitsVal (xs ++ [c]) = 10 * digitsVal xs + (c.toNat - 48) := by
  simp [digitsVal, List.foldl_append]

theorem digitsVal_natDigitsRevGo (fuel n : Nat) (h : n < fuel) :
    digitsVal ((natDigitsRevGo fuel n).reverse) = n := by
  induction fuel generalizing n with
  | zero => omega
  | succ fuel ih =>
    simp only [natDigitsRevGo]
    by_cases h10 : n < 10
    · simp only [if_pos h10, List.reverse_singleton]
      have := (digitChar_facts n h10).2.2.2.2
      simp [digitsVal, this]
    · simp only [if_neg h10, List.reverse_cons, digitsVal_append]
      have hmod := (digitChar_facts (n % 10) (by omega)).2.2.2.2
      rw [ih (n / 10) (by omega), hmod]
      omega

theorem takeWhile_all {p : Char → Bool} :
    ∀ {l : List Char}, (∀ c ∈ l, p c = true) → l.takeWhile p = l := by
  intro l
  induction l with
  | nil => intro _; rfl
  | cons a l ih =>
    intro h
    rw [List.takeWhile_cons, if_pos (h a (List.mem_cons_self a l))]
    rw [ih (fun c hc => h c (List.mem_cons_of_mem a hc))]

theorem roundToDouble_small (n : Nat) (h : n < 2 ^ 53) : roundToDouble n = n := by
  unfold roundToDouble
  rw [if_pos h]

theorem jsNumToString_natCast (n : Nat) (h : n < 2 ^ 53) :
    jsNumToString (n : Int) = (natDigitsRev n).reverse := by
  unfold jsNumToString natToJsDigits
  rw [if_neg (by omega : ¬ ((n : Int) < 0)), Int.toNat_natCast, roundToDouble_small n h,
    if_pos h]
  rfl

theorem jsNumToString_ne_nil (n : Nat) (h : n < 2 ^ 53) : jsNumToString (n : Int) ≠ [] := by
  rw [jsNumToString_natCast n h]
  intro hnil
  exact natDigitsRevGo_ne_nil (n + 1) n (by omega) (List.reverse_eq_nil_iff.mp hnil)

theorem jsParseInt_jsNumToString (n : Nat) (h53 : n < 2 ^ 53) :
    jsParseIntChars (jsNumToString (n : Int)) = some (n : Int) := by
  rw [jsNumToString_natCast n h53]
  have hmem : ∀ c ∈ (natDigitsRev n).reverse, ∃ d, d < 10 ∧ c = Nat.digitChar d := by
    intro c hc
    exact natDigitsRevGo_mem (n + 1) n (by omega) c (List.mem_reverse.mp hc)
  have hne : (natDigitsRev n).reverse ≠ [] := by
    intro h
    exact natDigitsRevGo_ne_nil (n + 1) n (by omega) (List.reverse_eq_nil_iff.mp h)
  obtain ⟨a, r, har⟩ := List.exists_cons_of_ne_nil hne
  obtain ⟨d, hd10, had⟩ := hmem a (har ▸ List.mem_cons_self a r)
  have hfacts := digitChar_facts d hd10
  have hdrop : ((natDigitsRev n).reverse).dropWhile isJsSpace = a :: r := by
    rw [har, List.dropWhile_cons, if_neg (by rw [had, hfacts.2.1]; simp)]
  have htake : ((natDigitsRev n).reverse).takeWhile Char.isDigit = (natDigitsRev n).reverse :=
    takeWhile_all (fun c hc => by
      obtain ⟨d', hd10', hcd'⟩ := hmem c hc
      rw [hcd']; exact (digitChar_facts d' hd10').1)
  unfold jsParseIntChars
  rw [hdrop]
  simp only [jsParseIntSigned]
  rw [if_neg (by rw [had]; exact hfacts.2.2.1), if_neg (by rw [had]; exact hfacts.2.2.2.1)]
  rw [← har]
  unfold digitsPrefixVal
  simp only [htake, if_neg hne, Option.map_some]
  have hval : digitsVal (natDigitsRev n).reverse = n :=
    digitsVal_natDigitsRevGo (n + 1) n (by omega)
  simp [hval, roundToDouble_small n h53]

theorem utf8EncodeCodepoint_le255 (n : Nat) (h : n < 1114112) :
    ∀ b ∈ utf8EncodeCodepoint n, b ≤ 255 := by
  intro b hb
  unfold utf8EncodeCodepoint at hb
  split_ifs at hb with h1 h2 h3
  all_goals simp only [List.mem_cons, List.not_mem_nil, or_false] at hb
  · omega
  · rcases hb with hb | hb <;> omega
  · rcases hb with hb | hb | hb <;> omega
  · rcases hb with hb | hb | hb | hb <;> omega

/-! ## Claim theorems: the limit parser -/

/-- C6 counterexample: `parseInt` returns a double, so the non-negative
integer literal `9007199254740993` (`2^53 + 1`) is rounded to
`9007199254740992`; the `String(parseInt(s)) === s` round trip therefore
fails, the literal falls through to the segment parser (no `:`, so it is
ignored) and parses to the empty LimitSpec, not to the per-second bound
the claim's universal prescribes. -/
theorem parseLimits_bignum_roundtrip_cex :
    jsParseIntChars ("9007199254740993".data) = some 9007199254740992
    ∧ parseLimits (some "9007199254740993") = {}
    ∧ ({} : LimitSpec) ≠ { rps := some 9007199254740993 } := by decide

/-- C6 amended: `parse("10")` equals `parse("rps:10")`; for every
non-negative integer literal whose value is below `2^53` (exactly
representable as a double, so that `parseInt` is exact and `String`
reproduces the literal) the parse is the per-second bound of that value —
larger literals are subject to double rounding and fail the round trip
when rounding moves them (e.g. `2^53 + 1`); `"rpm:60,rpd:1000"` sets
exactly the minute and day bounds; `"garbage"` parses to the empty
LimitSpec; empty or undefined input parses to the empty LimitSpec. -/
theorem parseLimits_literal_bounded :
    parseLimits (some "10") = parseLimits (some "rps:10")
    ∧ (∀ n : Nat, n < 2 ^ 53 →
        parseLimits (some (String.mk (jsNumToString (n : Int)))) = { rps := some (n : Int) })
    ∧ parseLimits (some "rpm:60,rpd:1000") = { rpm := some 60, rpd := some 1000 }
    ∧ parseLimits (some "garbage") = {}
    ∧ parseLimits (some "") = {}
    ∧ parseLimits none = {} := by
  refine ⟨by decide, ?_, by decide, by decide, by decide, rfl⟩
  intro n h
  have hd : (String.mk (jsNumToString (n : Int))).data = jsNumToString (n : Int) := rfl
  simp only [parseLimits, hd, jsParseInt_jsNumToString n h]
  simp [jsNumToString_ne_nil n h]

/-- Witness for the amended C6 theorem at the literal `10`. -/
theorem parseLimits_literal_bounded_witness :
    parseLimits (some (String.mk (jsNumToString (10 : Int)))) = { rps := some (10 : Int) } :=
  parseLimits_literal_bounded.2.1 10 (by decide)

/-- C7 counterexample: the segment `rpm:-3` is not of the shape
`unit:value` with a non-negative integer value, yet it is not ignored —
it contributes the bound `-3` for the minute window. -/
theorem parseLimits_negative_segment_cex :
    parseLimits (some "rpm:-3") = { rpm := some (-3) }
    ∧ ({ rpm := some (-3) } : LimitSpec) ≠ ({} : LimitSpec) := by decide

/-- C7 amended: a segment whose key (the text before the first `:`) is not
one of `rps`/`rpm`/`rph`/`rpd`, or whose value does not `parseInt` to a
number, is silently ignored; otherwise the key's bound is set to the
`parseInt` prefix-parse of the value, which may be negative (`rpm:-3`),
may come from a longer string (`rps:5x`), and ignores any third `:` field
(`rps:5:extra`); the parse never fails and the last occurrence of a unit
wins (`rps:1,rps:2`). -/
theorem parseLimits_segment_behavior :
    (∀ (acc : LimitSpec) (part : List Char),
        ((splitChar ':' part).headD [] ∉
            [("rps".data : List Char), "rpm".data, "rph".data, "rpd".data]
          ∨ jsParseIntOpt (splitChar ':' part)[1]? = none) →
        applySeg acc part = acc)
    ∧ parseLimits (some "rpm:-3") = { rpm := some (-3) }
    ∧ parseLimits (some "rps:5x") = { rps := some 5 }
    ∧ parseLimits (some "rps:5:extra") = { rps := some 5 }
    ∧ parseLimits (some "rps:1,rps:2") = { rps := some 2 }
    ∧ parseLimits (some "garbage,rpm:7,,x:y") = { rpm := some 7 } := by
  refine ⟨?_, by decide, by decide, by decide, by decide, by decide⟩
  intro acc part h
  rcases h with h | h
  · simp only [List.mem_cons, List.not_mem_nil, or_false, not_or] at h
    obtain ⟨h1, h2, h3, h4⟩ := h
    simp only [List.headD_eq_head?_getD] at h1 h2 h3 h4
    unfold applySeg
    rcases hp : jsParseIntOpt (splitChar ':' part)[1]? with _ | v
    · simp [hp]
    · simp [hp, h1, h2, h3, h4]
  · unfold applySeg
    simp [h]

/-- Witness for the amended C7 theorem: the segment `foo:3` has a key
outside the unit set and is ignored. -/
theorem parseLimits_segment_behavior_witness :
    applySeg {} ("foo:3".data) = ({} : LimitSpec) :=
  parseLimits_segment_behavior.1 {} ("foo:3".data) (Or.inl (by decide))

/-! ## Claim theorems: the error-header sanitizer -/

/-- C10 counterexample: `sanitizeErrorHeader` applied to the string
`"é"` (code point 233) yields the two UTF-8 bytes 195 and 169, so the
result is not 7-bit: not every character code is at most 127. -/
theorem sanitize_not_7bit_cex :
    ¬ (∀ b ∈ sanitizeErrorHeader (JsVal.str "é"), b ≤ 127) := by decide

/-- C10 amended: for every string message, every character of the
sanitized header has a code at most 255 (it is a UTF-8 byte: 8-bit-folded,
not 7-bit) and is neither LF (10) nor CR (13); every non-string message
yields the empty string. -/
theorem sanitize_8bit_no_newlines :
    (∀ (s : String), ∀ b ∈ sanitizeErrorHeader (JsVal.str s), b ≤ 255 ∧ b ≠ 10 ∧ b ≠ 13)
    ∧ sanitizeErrorHeader JsVal.nonString = [] := by
  refine ⟨?_, rfl⟩
  intro s b hb
  simp only [sanitizeErrorHeader, List.mem_filter] at hb
  obtain ⟨hmem, hpred⟩ := hb
  have hb255 : b ≤ 255 := by
    simp only [utf8ToAscii, List.mem_flatMap, List.mem_map] at hmem
    obtain ⟨a, ⟨c, _, hca⟩, hba⟩ := hmem
    have hv : c.val.toNat < 1114112 := by
      rcases c.valid with h | ⟨_, h⟩ <;> omega
    refine utf8EncodeCodepoint_le255 a ?_ b hba
    rw [← hca]; exact hv
  simp only [Bool.and_eq_true, decide_eq_true_eq] at hpred
  exact ⟨hb255, hpred.1, hpred.2⟩

/-- Witness for the amended C10 theorem at the concrete message `"é"` and
byte 195. -/
theorem sanitize_8bit_no_newlines_witness :
    (195 : Nat) ∈ sanitizeErrorHeader (JsVal.str "é")
    ∧ ((195 : Nat) ≤ 255 ∧ (195 : Nat) ≠ 10 ∧ (195 : Nat) ≠ 13) :=
  ⟨by decide, sanitize_8bit_no_newlines.1 "é" 195 (by decide)⟩

/-! ## Gate lemmas -/

theorem storeGet_storeSet (st : Store) (k : String) (v : Counts) :
    storeGet (storeSet st k v) k = some v := by
  induction st with
  | nil => simp [storeSet, storeGet, List.find?]
  | cons p rest ih =>
    obtain ⟨k', v'⟩ := p
    by_cases h : k' = k
    · simp [storeSet, h, storeGet, List.find?]
    · simp only [storeSet, if_neg h, storeGet, List.find?] at ih ⊢
      simp only [decide_eq_false h]
      exact ih

theorem limitOf_singleLimit_self (u : WUnit) (b : Int) :
    limitOf u (singleLimit u b) = some b := by
  cases u <;> rfl

theorem tsOf_setUC (u : WUnit) (c : Counts) (ts cnt : Option Int) :
    tsOf u (setUC u c ts cnt) = ts := by
  cases u <;> rfl

theorem countOf_setUC (u : WUnit) (c : Counts) (ts cnt : Option Int) :
    countOf u (setUC u c ts cnt) = cnt := by
  cases u <;> rfl

theorem rateCheck_singleLimit (u : WUnit) (b : Int) (now : Int) (c : Counts) :
    rateCheck (singleLimit u b) now c =
      ((checkU (singleLimit u b) now c u).1,
       setUC u c (checkU (singleLimit u b) now c u).2.1 (checkU (singleLimit u b) now c u).2.2) := by
  rw [rateCheck_closed]
  cases u <;>
    simp [examined, unitPass, checkU, limitOf, singleLimit, check, setUC, tsOf, countOf]

theorem gate_singleLimit_step (u : WUnit) (b : Int) (apiKeys : List (String × LimitSpec))
    (ah qk : Option String) (k : String)
    (hres : resolveKey ah qk = k) (hreg : registryGet apiKeys k = some (singleLimit u b))
    (t : Int) (st : Store) :
    authAndRateLimit apiKeys ah qk t st =
      ((if (checkU (singleLimit u b) t ((storeGet st k).getD {}) u).1 then none
        else some (failPng (JsVal.str "Too Many Requests") 429)),
       storeSet st k
         (setUC u ((storeGet st k).getD {})
           (checkU (singleLimit u b) t ((storeGet st k).getD {}) u).2.1
           (checkU (singleLimit u b) t ((storeGet st k).getD {}) u).2.2)) := by
  simp only [authAndRateLimit, hres, hreg, rateCheck_singleLimit]
  rcases hc : checkU (singleLimit u b) t ((storeGet st k).getD {}) u with ⟨p, ts', cnt'⟩
  cases p <;> simp

theorem rateCheck_zero_fails (L : LimitSpec) (now : Int) (c : Counts)
    (h0 : L.rps = some 0 ∨ L.rpm = some 0 ∨ L.rph = some 0 ∨ L.rpd = some 0) :
    (rateCheck L now c).1 = false := by
  rw [rateCheck_closed]
  rcases h0 with h | h | h | h
  · have hp : unitPass L now c .s = false := by simp [unitPass, checkU, limitOf, h, check]
    simp [examined, hp]
  · have hp : unitPass L now c .m = false := by simp [unitPass, checkU, limitOf, h, check]
    simp [examined, hp]
  · have hp : unitPass L now c .h = false := by simp [unitPass, checkU, limitOf, h, check]
    simp [examined, hp]
  · have hp : unitPass L now c .d = false := by simp [unitPass, checkU, limitOf, h, check]
    simp [examined, hp]

theorem runRequests_in_bucket (u : WUnit) (b : Int) (apiKeys : List (String × LimitSpec))
    (ah qk : Option String) (k : String)
    (hres : resolveKey ah qk = k) (hreg : registryGet apiKeys k = some (singleLimit u b))
    (hb : 1 ≤ b) (m : Int) :
    ∀ (nows : List Int), (∀ t ∈ nows, bucketOf u t = m) →
      ∀ (j : Nat) (st : Store),
        tsOf u ((storeGet st k).getD {}) = some m →
        countOf u ((storeGet st k).getD {}) = some (j : Int) →
        (runRequests apiKeys ah qk nows st).1 =
          (List.range nows.length).map
            (fun (i : Nat) => if ((j : Int) + (i : Int) + 1 ≤ b) then none
                      else some (failPng (JsVal.str "Too Many Requests") 429)) := by
  intro nows
  induction nows with
  | nil => intro _ j st _ _; simp [runRequests]
  | cons t rest ih =>
    intro hnows j st hts hcnt
    have hbt : bucketOf u t = m := hnows t (List.mem_cons_self t rest)
    have hb0 : ¬ b = 0 := by omega
    have hcheck : checkU (singleLimit u b) t ((storeGet st k).getD {}) u =
        (decide ((j : Int) + 1 ≤ b), some m, some ((j : Int) + 1)) := by
      rw [checkU, limitOf_singleLimit_self, hbt, hts, hcnt]
      simp [check, hb0, jsInc, jsLe]
    have hcast : ((j : Int) + 1) = ((j + 1 : Nat) : Int) := by push_cast; ring
    have htail := ih (fun t' ht' => hnows t' (List.mem_cons_of_mem t ht')) (j + 1)
      (storeSet st k (setUC u ((storeGet st k).getD {}) (some m) (some ((j : Int) + 1))))
      (by rw [storeGet_storeSet]; simp [tsOf_setUC])
      (by
        rw [storeGet_storeSet]
        simp only [Option.getD_some, countOf_setUC]
        exact congrArg some hcast)
    simp only [runRequests, gate_singleLimit_step u b apiKeys ah qk k hres hreg t st, hcheck]
    rw [htail, List.length_cons, List.range_succ_eq_map, List.map_cons, List.map_map]
    congr 1
    · simp
    · apply List.map_congr_left
      intro i _
      simp only [Function.comp_apply]
      exact if_congr (by push_cast; omega) rfl rfl

/-! ## Claim theorems: the auth / rate-limit gate -/

/-- C1: for a known credential whose LimitSpec has a single configured
window unit with bound `b ≥ 1`, a sequence of admission checks all falling
into one time bucket of that unit (starting from a store whose stored
bucket differs, e.g. a fresh one) is admitted exactly on its first `b`
checks: the `i`-th check passes iff `i ≤ b`, and every later check in the
bucket — retries included — is denied with the 429 `Too Many Requests`
response, monotonically. -/
theorem singleWindow_first_b_admitted (u : WUnit) (b : Int) (hb : 1 ≤ b)
    (apiKeys : List (String × LimitSpec)) (ah qk : Option String) (k : String)
    (hres : resolveKey ah qk = k) (hreg : registryGet apiKeys k = some (singleLimit u b))
    (m : Int) (nows : List Int) (hnows : ∀ t ∈ nows, bucketOf u t = m)
    (st : Store) (hfresh : tsOf u ((storeGet st k).getD {}) ≠ some m) :
    (runRequests apiKeys ah qk nows st).1 =
      (List.range nows.length).map
        (fun (i : Nat) => if ((i : Int) + 1 ≤ b) then none
                  else some (failPng (JsVal.str "Too Many Requests") 429)) := by
  cases nows with
  | nil => simp [runRequests]
  | cons t rest =>
    have hbt : bucketOf u t = m := hnows t (List.mem_cons_self t rest)
    have hb0 : ¬ b = 0 := by omega
    have hcheck : checkU (singleLimit u b) t ((storeGet st k).getD {}) u =
        (decide ((1 : Int) ≤ b), some m, some 1) := by
      rw [checkU, limitOf_singleLimit_self, hbt]
      simp [check, hb0, hfresh, jsLe]
    have htail := runRequests_in_bucket u b apiKeys ah qk k hres hreg hb m rest
      (fun t' ht' => hnows t' (List.mem_cons_of_mem t ht')) 1
      (storeSet st k (setUC u ((storeGet st k).getD {}) (some m) (some 1)))
      (by rw [storeGet_storeSet]; simp [tsOf_setUC])
      (by rw [storeGet_storeSet]; simp [countOf_setUC])
    simp only [runRequests, gate_singleLimit_step u b apiKeys ah qk k hres hreg t st, hcheck]
    rw [htail, List.length_cons, List.range_succ_eq_map, List.map_cons, List.map_map]
    congr 1
    · simp [hb]
    · apply List.map_congr_left
      intro i _
      simp only [Function.comp_apply]
      exact if_congr (by push_cast; omega) rfl rfl

/-- Witness for C1: key `k` limited to `rpm:2`, three requests in minute
bucket 0 — admitted, admitted, denied 429. -/
theorem singleWindow_first_b_admitted_witness :
    (runRequests [("k", singleLimit WUnit.m 2)] none (some "k") [0, 1, 2] []).1 =
      (List.range ([0, 1, 2] : List Int).length).map
        (fun (i : Nat) => if ((i : Int) + 1 ≤ 2) then none
                  else some (failPng (JsVal.str "Too Many Requests") 429)) :=
  singleWindow_first_b_admitted WUnit.m 2 (by decide) [("k", singleLimit WUnit.m 2)]
    none (some "k") "k" (by decide) (by decide) 0 [0, 1, 2] (by decide) [] (by decide)

/-- C3: for a window with bound at least 1, when the stored bucket id
differs from the unit's current bucket the check resets the stored bucket
to the current one and the count to 1, and the window passes — whatever
count (even one exhausting the bound) the previous bucket had accumulated. -/
theorem window_rollover_resets (u : WUnit) (b : Int) (hb : 1 ≤ b) (now : Int)
    (stTs stCount : Option Int) (hdiff : stTs ≠ some (bucketOf u now)) :
    check (some b) (bucketOf u now) stTs stCount = (true, some (bucketOf u now), some 1) := by
  have hb0 : ¬ b = 0 := by omega
  simp [check, hb0, hdiff, jsLe, hb]

/-- Witness for C3: a minute window with bound 2, stored bucket 0 and an
exhausted stored count 99, checked in minute bucket 1. -/
theorem window_rollover_resets_witness :
    check (some 2) (bucketOf WUnit.m 60000) (some 0) (some 99) =
      (true, some (bucketOf WUnit.m 60000), some 1) :=
  window_rollover_resets WUnit.m 2 (by decide) 60000 (some 0) (some 99) (by decide)

/-- C4: a credential whose LimitSpec carries a bound 0 on any window unit
is denied with the 429 `Too Many Requests` PNG on every admission check,
whatever the current time and whatever counter state has accumulated; and
the limit strings `0` and `rps:0` do parse to such a LimitSpec. -/
theorem zero_bound_always_denied (apiKeys : List (String × LimitSpec)) (ah qk : Option String)
    (k : String) (L : LimitSpec) (now : Int) (st : Store)
    (hres : resolveKey ah qk = k) (hreg : registryGet apiKeys k = some L)
    (h0 : L.rps = some 0 ∨ L.rpm = some 0 ∨ L.rph = some 0 ∨ L.rpd = some 0) :
    (authAndRateLimit apiKeys ah qk now st).1 =
      some (failPng (JsVal.str "Too Many Requests") 429)
    ∧ parseLimits (some "0") = { rps := some 0 }
    ∧ parseLimits (some "rps:0") = { rps := some 0 } := by
  refine ⟨?_, by decide, by decide⟩
  have hz := rateCheck_zero_fails L now ((storeGet st k).getD {}) h0
  simp [authAndRateLimit, hres, hreg, hz]

/-- Witness for C4: a key hard-blocked by `rps:0` is denied at an
arbitrary time with empty counter state. -/
theorem zero_bound_always_denied_witness :
    (authAndRateLimit [("k", { rps := some 0 })] none (some "k") 12345 []).1 =
      some (failPng (JsVal.str "Too Many Requests") 429)
    ∧ parseLimits (some "0") = { rps := some 0 }
    ∧ parseLimits (some "rps:0") = { rps := some 0 } :=
  zero_bound_always_denied [("k", { rps := some 0 })] none (some "k") "k"
    { rps := some 0 } 12345 [] (by decide) (by decide) (Or.inl rfl)

/-- C5: the caller credential is the bearer value of a `Bearer `-prefixed
authorization header when one is present, else a truthy `key` query
parameter, else the anonymous sentinel; and whenever the resolved
credential is not in the key registry the gate answers the 401
`Unauthorized` PNG and returns the counter store unchanged — for every
store, so the anonymous policy never rescues an unknown explicit key. -/
theorem unknown_credential_unauthorized :
    (∀ (ah qk : Option String) (h : String),
        ah = some h → h ≠ "" → "Bearer ".data.isPrefixOf h.data = true →
        resolveKey ah qk = String.mk (h.data.drop 7))
    ∧ (∀ (ah qk : Option String) (k : String),
        (jsTruthy ah && "Bearer ".data.isPrefixOf (ah.getD "").data) = false →
        qk = some k → k ≠ "" → resolveKey ah qk = k)
    ∧ (∀ (ah qk : Option String),
        (jsTruthy ah && "Bearer ".data.isPrefixOf (ah.getD "").data) = false →
        jsTruthy qk = false → resolveKey ah qk = "_anonymous_")
    ∧ (∀ (apiKeys : List (String × LimitSpec)) (ah qk : Option String) (now : Int) (st : Store),
        registryGet apiKeys (resolveKey ah qk) = none →
        authAndRateLimit apiKeys ah qk now st =
          (some (failPng (JsVal.str "Unauthorized: Invalid API key.") 401), st)) := by
  refine ⟨?_, ?_, ?_, ?_⟩
  · intro ah qk h hah hne hpre
    subst hah
    have hdata : ¬ (h.data = []) := fun hd => hne (by cases h; simp_all)
    simp [resolveKey, jsTruthy, hdata, hpre]
  · intro ah qk k hbearer hqk hk
    subst hqk
    have hdata : ¬ (k.data = []) := fun hd => hk (by cases k; simp_all)
    unfold resolveKey
    rw [hbearer]
    simp [jsTruthy, hdata]
  · intro ah qk hbearer hq
    unfold resolveKey
    rw [hbearer, hq]
    simp
  · intro apiKeys ah qk now st hmiss
    simp [authAndRateLimit, hmiss]

/-- Witness for C5: a `Bearer zzz` header whose key is not registered is
rejected 401 with the store untouched, although the anonymous entry is
present and unlimited. -/
theorem unknown_credential_unauthorized_witness :
    authAndRateLimit [("_anonymous_", {})] (some "Bearer zzz") none 0 [] =
      (some (failPng (JsVal.str "Unauthorized: Invalid API key.") 401), []) :=
  unknown_credential_unauthorized.2.2.2 [("_anonymous_", {})] (some "Bearer zzz") none 0 []
    (by decide)

/-- C2 counterexample: key `k` has both `rps:1` and `rpm:5` configured and
a stale minute entry (bucket 99, count 7); a denied check at `now = 0`
(the second in second-bucket 0) leaves the minute entry untouched — its
bucket id is neither refreshed to the current minute bucket 0 nor its
count changed — refuting that every configured window unit is mutated on
every admission check. -/
theorem denied_check_skips_minute_counter_cex :
    (authAndRateLimit [("k", { rps := some 1, rpm := some 5 })] none (some "k") 0
        [("k", { ts_s := some 0, count_s := some 1, ts_m := some 99, count_m := some 7 })]).1
      = some (failPng (JsVal.str "Too Many Requests") 429)
    ∧ (authAndRateLimit [("k", { rps := some 1, rpm := some 5 })] none (some "k") 0
        [("k", { ts_s := some 0, count_s := some 1, ts_m := some 99, count_m := some 7 })]).2
      = [("k", { ts_s := some 0, count_s := some 2, ts_m := some 99, count_m := some 7 })]
    ∧ some (99 : Int) ≠ some (Int.fdiv 0 60000) := by decide

/-- C2 amended: on every admission check the window units are evaluated in
the fixed order second, minute, hour, day, stopping at the first failure;
a unit whose bound is absent or 0 is never mutated; a unit that is reached
and has a nonzero bound has its entry mutated (bucket id refreshed, count
reset-to-1 on a bucket change or incremented otherwise) — including the
unit that causes the denial, so a denied request is counted against the
unit that denied it — and units after the first failing one are left
unchanged on that check. -/
theorem counters_mutated_up_to_first_failure (L : LimitSpec) (now : Int) (c : Counts)
    (u : WUnit) :
    ((limitOf u L = none ∨ limitOf u L = some 0) →
        tsOf u (rateCheck L now c).2 = tsOf u c
        ∧ countOf u (rateCheck L now c).2 = countOf u c)
    ∧ (∀ l : Int, limitOf u L = some l → l ≠ 0 → examined L now c u = true →
        tsOf u (rateCheck L now c).2 = some (bucketOf u now)
        ∧ countOf u (rateCheck L now c).2 =
            (if tsOf u c = some (bucketOf u now) then jsInc (countOf u c) else some 1))
    ∧ (examined L now c u = false →
        tsOf u (rateCheck L now c).2 = tsOf u c
        ∧ countOf u (rateCheck L now c).2 = countOf u c) := by
  refine ⟨?_, ?_, ?_⟩
  · intro h0
    have h2 : (checkU L now c u).2 = (tsOf u c, countOf u c) := by
      rcases h0 with h | h <;> simp [checkU, h, check]
    cases u <;> simp [rateCheck_closed, tsOf, countOf, h2]
  · intro l hl hne hex
    by_cases hts : tsOf u c = some (bucketOf u now)
    · have h2 : (checkU L now c u).2 = (tsOf u c, jsInc (countOf u c)) := by
        simp [checkU, hl, check, hne, hts]
      cases u <;> simp_all [rateCheck_closed, tsOf, countOf, h2]
    · have h2 : (checkU L now c u).2 = (some (bucketOf u now), some 1) := by
        simp [checkU, hl, check, hne, hts]
      cases u <;> simp_all [rateCheck_closed, tsOf, countOf, h2]
  · intro hex
    cases u <;> simp_all [rateCheck_closed, tsOf, countOf, examined]

/-- Witness for the amended C2 theorem: a minute-only limit `rpm:5`, empty
counters, checked at `now = 0`: the minute unit is examined and its entry
is freshly written. -/
theorem counters_mutated_witness :
    tsOf WUnit.m (rateCheck { rpm := some 5 } 0 {}).2 = some (bucketOf WUnit.m 0)
    ∧ countOf WUnit.m (rateCheck { rpm := some 5 } 0 {}).2 =
        (if tsOf WUnit.m {} = some (bucketOf WUnit.m 0) then jsInc (countOf WUnit.m {})
         else some 1) :=
  (counters_mutated_up_to_first_failure { rpm := some 5 } 0 {} WUnit.m).2.1 5 rfl
    (by decide) (by decide)

/-! ## Claim theorems: the dispatch layer -/

/-- C8: exceptions do escape the dispatcher on the legacy endpoint.  A
/gchart request with no `cht` parameter throws (`req.query.cht.startsWith`
on `undefined`), a `cht=qr` request with no `chs` throws
(`req.query.chs.split` on `undefined`), and a failing legacy chart render
becomes an unhandled promise rejection (the final `renderChartJs` call has
no `catch` attached) — three failure paths that are not converted into a
response in the request's intended format. -/
theorem gchart_exception_escapes :
    handleGChart {} { graphviz := .ok, qr := .ok, toChartJsOk := true, legacyRender := .ok }
      = JsOutcome.thrown
    ∧ handleGChart { cht := some "qr", chl := some "hello" }
        { graphviz := .ok, qr := .ok, toChartJsOk := true, legacyRender := .ok }
      = JsOutcome.thrown
    ∧ handleGChart { cht := some "p3" }
        { graphviz := .ok, qr := .ok, toChartJsOk := true,
          legacyRender := .fail JsVal.nonString }
      = JsOutcome.unhandledRejection := by decide

/-- C9 counterexample: a /qr request with `format=svg` whose renderer
fails is answered by `failPng`: the failure response's content type is
`image/png` and not the `image/svg+xml` matching the originally requested
svg format. -/
theorem qr_svg_failure_is_png_cex :
    (handleQr { text := some "hi", format := some "svg" }
        (ChartRender.fail JsVal.nonString)).status = 500
    ∧ (handleQr { text := some "hi", format := some "svg" }
        (ChartRender.fail JsVal.nonString)).contentType = some "image/png"
    ∧ ({ text := some "hi", format := some "svg" } : Query).format = some "svg"
    ∧ (some "image/png" : Option String) ≠ some "image/svg+xml" := by decide

/-- C9 amended: failures of the native chart dispatcher (missing
`c`/`chart`, malformed base64, renderer failure) are answered in the
resolved output format — for png, svg and pdf the error response carries
the matching content type — and carry the sanitized message in the
`X-quickchart-error` header; but gate denials (401/429) and every /qr
failure are always `image/png`, whatever format the request asked for. -/
theorem failure_content_types :
    (∀ (q : Query) (render : ChartRender) (b64fail : Option JsVal),
        (resolveChartFormat q = "png" ∨ resolveChartFormat q = "svg"
          ∨ resolveChartFormat q = "pdf") →
        (chartGet q render b64fail).status ≠ 200 →
        (chartGet q render b64fail).contentType
            = some (formatContentType (resolveChartFormat q))
          ∧ ∃ m, (chartGet q render b64fail).errorHeader = some (sanitizeErrorHeader m))
    ∧ (∀ (apiKeys : List (String × LimitSpec)) (ah qk : Option String) (now : Int)
        (st : Store) (r : Response) (st' : Store),
        authAndRateLimit apiKeys ah qk now st = (some r, st') →
        r.contentType = some "image/png"
          ∧ ∃ m, r.errorHeader = some (sanitizeErrorHeader m))
    ∧ (∀ (q : Query) (render : ChartRender),
        (handleQr q render).status ≠ 200 →
        (handleQr q render).contentType = some "image/png"
          ∧ ∃ m, (handleQr q render).errorHeader = some (sanitizeErrorHeader m)) := by
  refine ⟨?_, ?_, ?_⟩
  · intro q render b64fail hfmt hst
    rcases hfmt with h | h | h
    · simp only [chartGet, h] at hst ⊢
      rw [if_neg (by decide), if_neg (by decide), if_pos (by decide)] at hst ⊢
      unfold doChartjsRender at hst ⊢
      split_ifs at hst ⊢
      · exact ⟨rfl, ⟨_, rfl⟩⟩
      · exact ⟨rfl, ⟨_, rfl⟩⟩
      · rcases render with _ | e
        · simp at hst
        · exact ⟨rfl, ⟨_, rfl⟩⟩
    · simp only [chartGet, h] at hst ⊢
      rw [if_neg (by decide), if_pos (by decide)] at hst ⊢
      unfold doChartjsRender at hst ⊢
      split_ifs at hst ⊢
      · exact ⟨rfl, ⟨_, rfl⟩⟩
      · exact ⟨rfl, ⟨_, rfl⟩⟩
      · rcases render with _ | e
        · simp at hst
        · exact ⟨rfl, ⟨_, rfl⟩⟩
    · simp only [chartGet, h] at hst ⊢
      rw [if_pos (by decide)] at hst ⊢
      unfold doChartjsRender at hst ⊢
      split_ifs at hst ⊢
      · exact ⟨rfl, ⟨_, rfl⟩⟩
      · exact ⟨rfl, ⟨_, rfl⟩⟩
      · rcases render with _ | e
        · simp at hst
        · exact ⟨rfl, ⟨_, rfl⟩⟩
  · intro apiKeys ah qk now st r st' hgate
    simp only [authAndRateLimit] at hgate
    split at hgate
    · simp only [Prod.mk.injEq, Option.some.injEq] at hgate
      rw [← hgate.1]
      exact ⟨rfl, ⟨_, rfl⟩⟩
    · split_ifs at hgate
      · simp at hgate
      · simp only [Prod.mk.injEq, Option.some.injEq] at hgate
        rw [← hgate.1]
        exact ⟨rfl, ⟨_, rfl⟩⟩
  · intro q render hst
    unfold handleQr at hst ⊢
    rcases render with _ | e
    · split_ifs at hst ⊢
      · exact ⟨rfl, ⟨_, rfl⟩⟩
      · simp at hst
      · simp at hst
    · split_ifs at hst ⊢
      · exact ⟨rfl, ⟨_, rfl⟩⟩
      · exact ⟨rfl, ⟨_, rfl⟩⟩
      · exact ⟨rfl, ⟨_, rfl⟩⟩

/-- Witness for the amended C9 theorem: a hard-blocked key's 429 denial is
an `image/png` response with a sanitized diagnostic header. -/
theorem failure_content_types_witness :
    (failPng (JsVal.str "Too Many Requests") 429).contentType = some "image/png"
    ∧ ∃ m, (failPng (JsVal.str "Too Many Requests") 429).errorHeader
        = some (sanitizeErrorHeader m) :=
  failure_content_types.2.1 [("k", { rps := some 0 })] none (some "k") 0 []
    (failPng (JsVal.str "Too Many Requests") 429) [("k", {})] (by decide)

end QuickChart
